import Mathlib

/-!
Shallow embedding of the task/todo assignment subsystem of the repository:
the route handlers in `plugins/tasks/server/api/tasks.ts` (create, update,
delete, assign, unassign), the models `TaskItem.ts` and `TaskAssignment.ts`,
and the storage schema from migration `20250924115005-create-task-tables.js`
together with `20250924203909-add-deleted-at-to-task-assignments.js`.

Soft-delete ("paranoid") semantics follow the base `ParanoidModel` as
exercised by the model tests: `destroy` sets a `deletedAt` timestamp and
default queries filter to rows whose `deletedAt` is null.

Database ids and timestamps are modelled as `Nat`; JSON request fields that
may be absent are `Option`s.
-/

namespace Tasks

/-- The backend priority enum `TaskPriority` from `TaskItem.ts`. -/
inductive Priority where
  | low
  | medium
  | high
  | urgent
deriving DecidableEq, Repr

/-- A row of the `users` table, restricted to the fields the task routes
read: id, team membership and the admin flag. -/
structure User where
  id : Nat
  teamId : Nat
  isAdmin : Bool
deriving DecidableEq, Repr

/-- A row of the `task_items` table (model `TaskItem`), restricted to the
fields the claims touch.  `deletedAt` is the paranoid tombstone. -/
structure Task where
  id : Nat
  title : String
  description : Option String
  priority : Priority
  deadline : Option Nat
  tags : List String
  createdById : Nat
  teamId : Nat
  createdAt : Nat
  deletedAt : Option Nat
deriving DecidableEq, Repr

/-- A row of the `task_assignments` table (model `TaskAssignment`).
`deletedAt` was added by migration 20250924203909. -/
structure Assignment where
  id : Nat
  taskId : Nat
  userId : Nat
  assignedById : Nat
  assignedAt : Nat
  deletedAt : Option Nat
deriving DecidableEq, Repr

/-- The persistent store the handlers read and write. -/
structure DB where
  tasks : List Task
  assignments : List Assignment
  users : List User
deriving DecidableEq, Repr

/-- An error response produced by a handler: the HTTP status it sets and the
`error` string of the `ok: false` body. -/
structure ErrResponse where
  status : Nat
  error : String
deriving DecidableEq, Repr

/-- Paranoid team-scoped task lookup,
`TaskItem.findOne(\x7bwhere: \x7bid, teamId\x7d\x7d)`: the default paranoid
scope filters out soft-deleted rows. -/
def taskFindOne (db : DB) (id teamId : Nat) : Option Task :=
  db.tasks.find? fun t => t.deletedAt.isNone && t.id == id && t.teamId == teamId

/-- Team-scoped user lookup, `User.findOne(\x7bwhere: \x7bid, teamId\x7d\x7d)`. -/
def userFindOne (db : DB) (id teamId : Nat) : Option User :=
  db.users.find? fun u => u.id == id && u.teamId == teamId

/-- Paranoid assignment lookup,
`TaskAssignment.findOne(\x7bwhere: \x7btaskId, userId\x7d\x7d)`: only rows with
`deletedAt` null are visible to the default scope. -/
def assignmentFindOne (db : DB) (taskId userId : Nat) : Option Assignment :=
  db.assignments.find? fun a =>
    a.deletedAt.isNone && a.taskId == taskId && a.userId == userId

/-- The non-deleted assignments of a task, as returned by the paranoid
`assignments` include on the read paths (`tasks.list`). -/
def activeAssignmentsFor (db : DB) (taskId : Nat) : List Assignment :=
  db.assignments.filter fun a => a.deletedAt.isNone && a.taskId == taskId

/-- Insert performed by `TaskAssignment.createAssignment(taskId, userId,
assignedById)`.  Migration 20250924115005 put the unique constraint
`task_assignments_task_user_unique` on the plain pair (taskId, userId); it is
not filtered on `deletedAt`, so the insert is rejected whenever any row with
the same pair exists, whether soft-deleted or not.  The rejected insert
throws, and the route catch-block surfaces the driver message as a 400
response; the exact text of that message comes from the database driver. -/
def createAssignment (db : DB) (newId taskId userId assignedById now : Nat) :
    Except ErrResponse DB :=
  if db.assignments.any fun a => a.taskId == taskId && a.userId == userId then
    .error ⟨400, "Validation error"⟩
  else
    .ok { db with
      assignments := ⟨newId, taskId, userId, assignedById, now, none⟩ :: db.assignments }

/-- Predicate for the rows hit by `TaskAssignment.removeAssignment`: the
paranoid bulk `destroy` touches the non-deleted rows matching the pair. -/
def removeHits (taskId userId : Nat) (a : Assignment) : Bool :=
  a.deletedAt.isNone && a.taskId == taskId && a.userId == userId

/-- Bulk soft-delete performed by `TaskAssignment.removeAssignment(taskId,
userId)`: every matching active row gets its `deletedAt` set, and the number
of affected rows is returned. -/
def removeAssignment (db : DB) (taskId userId now : Nat) : DB × Nat :=
  ({ db with
      assignments := db.assignments.map fun a =>
        if removeHits taskId userId a then { a with deletedAt := some now } else a },
   (db.assignments.filter (removeHits taskId userId)).length)

/-- Request body of `tasks.create`; every field may be absent. -/
structure CreateInput where
  title : Option String
  description : Option String
  priority : Option String
  dueDate : Option Nat
  deadline : Option Nat
  tags : Option (List String)
deriving DecidableEq, Repr

/-- The priority coercion at the top of the `tasks.create` handler: the
strings low, medium and high map to the enum, and anything else — absent,
unrecognized, or even the string urgent — falls through to the default
Medium.  No error is ever raised here. -/
def backendPriority (priority : Option String) : Priority :=
  if priority == some "low" then .low
  else if priority == some "medium" then .medium
  else if priority == some "high" then .high
  else .medium

/-- The `dueDate || deadline` fallback both create and update apply. -/
def effectiveDeadline (dueDate deadline : Option Nat) : Option Nat :=
  match dueDate with
  | some d => some d
  | none => deadline

/-- Handler `tasks.create`.  The insert runs the model validators of
`TaskItem`: the `Length(max 255)` validator on title, and the NOT NULL
column constraint (missing title rejects).  There is no minimum-length or
non-empty validator, so an empty title passes.  Validator failures are
caught and surfaced as a 400 response. -/
def tasksCreate (db : DB) (input : CreateInput) (user : User) (newId now : Nat) :
    Except ErrResponse (DB × Task) :=
  match input.title with
  | none => .error ⟨400, "notNull Violation: TaskItem.title cannot be null"⟩
  | some title =>
    if title.length > 255 then
      .error ⟨400, "Task title must be 255 characters or less"⟩
    else
      let task : Task :=
        { id := newId
          title := title
          description := input.description
          priority := backendPriority input.priority
          deadline := effectiveDeadline input.dueDate input.deadline
          tags := input.tags.getD []
          createdById := user.id
          teamId := user.teamId
          createdAt := now
          deletedAt := none }
      .ok ({ db with tasks := task :: db.tasks }, task)

/-- Request body of `tasks.update`. -/
structure UpdateInput where
  id : Nat
  title : Option String
  description : Option String
  priority : Option String
  deadline : Option Nat
  dueDate : Option Nat
  tags : Option (List String)
deriving DecidableEq, Repr

/-- The `isIn` validator on the priority column of `TaskItem`: the raw
request string must be one of the four enum values. -/
def parsePriority (s : String) : Option Priority :=
  if s == "low" then some .low
  else if s == "medium" then some .medium
  else if s == "high" then some .high
  else if s == "urgent" then some .urgent
  else none

/-- The priority column value the update writes: a supplied request string
passes through the `isIn` validator, an absent one keeps the previous
value.  A `none` result means the validator rejected the update. -/
def resolvePriority (input : UpdateInput) (task : Task) : Option Priority :=
  match input.priority with
  | some p => parsePriority p
  | none => some task.priority

/-- The row written back by `task.update(...)`: each supplied field replaces
the column (with the `dueDate || deadline` fallback for the deadline), each
absent field keeps its previous value. -/
def updatedTask (task : Task) (input : UpdateInput) (pr : Priority) : Task :=
  { task with
    title := input.title.getD task.title
    description := match input.description with
      | some d => some d
      | none => task.description
    priority := pr
    deadline := match effectiveDeadline input.dueDate input.deadline with
      | some d => some d
      | none => task.deadline
    tags := input.tags.getD task.tags }

/-- Handler `tasks.update`: team-scoped paranoid lookup, then
`task.update(...)` with a conditional spread per field — a field absent from
the request leaves the column untouched.  The model validators (title length,
priority `isIn`) run on the updated values; a failure is caught and surfaced
as a 400 response, leaving the store unchanged.  The save writes the row back
by primary key. -/
def tasksUpdate (db : DB) (input : UpdateInput) (user : User) :
    Except ErrResponse (DB × Task) :=
  match taskFindOne db input.id user.teamId with
  | none => .error ⟨404, "Task not found"⟩
  | some task =>
    if (input.title.getD task.title).length > 255 then
      .error ⟨400, "Task title must be 255 characters or less"⟩
    else
      match resolvePriority input task with
      | none => .error ⟨400, "Validation error"⟩
      | some pr =>
        .ok ({ db with tasks := db.tasks.map fun t =>
                if t.id == task.id then updatedTask task input pr else t },
          updatedTask task input pr)

/-- Handler `tasks.delete`: team-scoped paranoid lookup, then
`task.destroy()`, which (paranoid) sets `deletedAt` on the row by primary
key.  Nothing else is touched: the handler has no cascade step, the models
register no destroy hooks, and the `onDelete: CASCADE` of the foreign key
only applies to physical deletes. -/
def tasksDelete (db : DB) (id : Nat) (user : User) (now : Nat) :
    Except ErrResponse DB :=
  match taskFindOne db id user.teamId with
  | none => .error ⟨404, "Task not found"⟩
  | some task =>
    .ok { db with
      tasks := db.tasks.map fun t =>
        if t.id == task.id then { t with deletedAt := some now } else t }

/-- The target-defaulting step shared by assign and unassign: an absent
`userId` in the request body falls back to the acting user (self-assign). -/
def effectiveTarget (userId : Option Nat) (currentUser : User) : Nat :=
  userId.getD currentUser.id

/-- Handler `tasks.assign`: resolve the task team-scoped; default the target
to the caller; when a different target was supplied, require creator-or-admin;
then check the target exists in the team; then the paranoid duplicate check;
then the insert (which can still be rejected by the unconditional unique
constraint, surfaced as a 400).  On success the new assignment row is
returned alongside the updated store. -/
def tasksAssign (db : DB) (id : Nat) (userId : Option Nat) (currentUser : User)
    (newId now : Nat) : Except ErrResponse (DB × Assignment) :=
  match taskFindOne db id currentUser.teamId with
  | none => .error ⟨404, "Task not found"⟩
  | some task =>
    if effectiveTarget userId currentUser != currentUser.id &&
        task.createdById != currentUser.id && !currentUser.isAdmin then
      .error ⟨403, "Only task creator or administrators can assign tasks to other users"⟩
    else if effectiveTarget userId currentUser != currentUser.id &&
        (userFindOne db (effectiveTarget userId currentUser) currentUser.teamId).isNone then
      .error ⟨404, "Target user not found in your team"⟩
    else
      match assignmentFindOne db id (effectiveTarget userId currentUser) with
      | some _ => .error ⟨400, "User is already assigned to this task"⟩
      | none =>
        match createAssignment db newId id (effectiveTarget userId currentUser)
            currentUser.id now with
        | .error e => .error e
        | .ok db2 =>
          .ok (db2, ⟨newId, id, effectiveTarget userId currentUser, currentUser.id, now, none⟩)

/-- Success body of `tasks.unassign`. -/
structure UnassignData where
  deleted : Bool
  taskId : Nat
  userId : Nat
deriving DecidableEq, Repr

/-- Handler `tasks.unassign`: resolve the task team-scoped; default the
target to the caller; when a different target was supplied, require
creator-or-admin; then look up the active assignment; soft-delete it and
answer with the pair and the deleted flag. -/
def tasksUnassign (db : DB) (id : Nat) (userId : Option Nat) (currentUser : User)
    (now : Nat) : Except ErrResponse (DB × UnassignData) :=
  match taskFindOne db id currentUser.teamId with
  | none => .error ⟨404, "Task not found"⟩
  | some task =>
    if effectiveTarget userId currentUser != currentUser.id &&
        task.createdById != currentUser.id && !currentUser.isAdmin then
      .error ⟨403, "Only task creator or administrators can unassign tasks from other users"⟩
    else
      match assignmentFindOne db id (effectiveTarget userId currentUser) with
      | none => .error ⟨404, "Assignment not found"⟩
      | some _ =>
        .ok ((removeAssignment db id (effectiveTarget userId currentUser) now).1,
          ⟨decide ((removeAssignment db id (effectiveTarget userId currentUser) now).2 > 0),
            id, effectiveTarget userId currentUser⟩)

/-- Modelled from the spec: `GetTask(taskId, teamId) → Task | NotFound`.  The
source has no `tasks.get` route (reads go through the team-scoped
`tasks.list`); the spec describes a single-task read using the same
team-scoped paranoid lookup the update and delete handlers perform, with the
same anti-leak `NotFound`. -/
def tasksGet (db : DB) (id : Nat) (user : User) : Except ErrResponse Task :=
  match taskFindOne db id user.teamId with
  | none => .error ⟨404, "Task not found"⟩
  | some task => .ok task

/-! Concrete fixtures used by counterexamples and witnesses. -/

/-- A regular (non-admin) member of team 10 with id 1. -/
def exCreator : User := ⟨1, 10, false⟩

/-- An active task of team 10, created by user 1. -/
def exTask : Task := ⟨100, "Ship v1", none, .medium, none, [], 1, 10, 0, none⟩

/-- An active self-assignment of user 1 on task 100. -/
def exAssignment : Assignment := ⟨200, 100, 1, 1, 0, none⟩

/-- A store holding the task, its one active assignment, and its creator. -/
def exDb : DB := ⟨[exTask], [exAssignment], [exCreator]⟩

/-- The store `exDb` after `tasksDelete` tombstones the task at time 5. -/
def exDbDeleted : DB := ⟨[{ exTask with deletedAt := some 5 }], [exAssignment], [exCreator]⟩

/-- A store where the only assignment row for (task 100, user 1) is
soft-deleted (as left behind by a successful unassign). -/
def exDbTombstone : DB := ⟨[exTask], [⟨200, 100, 1, 1, 0, some 3⟩], [exCreator]⟩

/-- A store with the task and its creator and no assignment rows at all. -/
def exDbNoRows : DB := ⟨[exTask], [], [exCreator]⟩

/-! General helper lemmas about the lookups. -/

/-- The task lookup only reads the tasks table. -/
theorem taskFindOne_tasks_eq (db db' : DB) (h : db'.tasks = db.tasks) (i tm : Nat) :
    taskFindOne db' i tm = taskFindOne db i tm := by
  unfold taskFindOne
  rw [h]

/-- The user lookup only reads the users table. -/
theorem userFindOne_users_eq (db db' : DB) (h : db'.users = db.users) (i tm : Nat) :
    userFindOne db' i tm = userFindOne db i tm := by
  unfold userFindOne
  rw [h]

/-- A successful insert prepends exactly the new row. -/
theorem createAssignment_ok (db db' : DB) (nid tid uid abid now : Nat)
    (h : createAssignment db nid tid uid abid now = .ok db') :
    db' = { db with assignments := ⟨nid, tid, uid, abid, now, none⟩ :: db.assignments } := by
  unfold createAssignment at h
  split at h
  · simp at h
  · simp only [Except.ok.injEq] at h
    exact h.symm

/-- C1: the claim states that a successful DeleteTask soft-deletes the task
and, in the same transaction, every non-deleted assignment referencing it.
Running the delete handler on a task with one active assignment shows the
task tombstoned while its assignment stays active and is still returned by
the active-assignment listing: the handler has no cascade step, and no
destroy hook exists in the models.  The model test of the repository itself expects
the assignment to be soft-deleted with the task, so the code, not the claim,
is wrong here. -/
theorem softDelete_leaves_assignments_active :
    tasksDelete exDb 100 exCreator 5 = .ok exDbDeleted ∧
    taskFindOne exDbDeleted 100 10 = none ∧
    activeAssignmentsFor exDbDeleted 100 = [exAssignment] :=
  ⟨rfl, rfl, rfl⟩

/-- C2 counterexample: in `exDbTombstone` no active assignment for
(task 100, user 1) exists — only a soft-deleted row — yet the self-assign
fails: the insert trips the unique constraint
`task_assignments_task_user_unique`, which migration 20250924115005 placed on
the plain pair (taskId, userId) with no filter on `deletedAt`.  The claim
that such an assign succeeds is false. -/
theorem assign_blocked_by_tombstoned_row :
    assignmentFindOne exDbTombstone 100 1 = none ∧
    tasksAssign exDbTombstone 100 none exCreator 300 7 =
      .error ⟨400, "Validation error"⟩ :=
  ⟨rfl, rfl⟩

/-- C2 amended: for a team member and a visible task, self-assign (no target
supplied) succeeds whenever no assignment row for the pair exists at all,
whether active or soft-deleted; the uniqueness constraint is unconditional,
so only the total absence of rows for the pair guarantees success. -/
theorem assign_self_succeeds_without_any_row (db : DB) (u : User) (tid nid now : Nat)
    (htask : (taskFindOne db tid u.teamId).isSome = true)
    (hnorow : ∀ a ∈ db.assignments, ¬(a.taskId = tid ∧ a.userId = u.id)) :
    (tasksAssign db tid none u nid now).isOk = true := by
  obtain ⟨t, ht⟩ := Option.isSome_iff_exists.mp htask
  have hfind : assignmentFindOne db tid u.id = none := by
    unfold assignmentFindOne
    refine List.find?_eq_none.mpr fun a ha => ?_
    have hna := hnorow a ha
    simp only [Bool.and_eq_true, beq_iff_eq]
    intro hc
    exact hna ⟨hc.1.2, hc.2⟩
  have hany : (db.assignments.any fun a => a.taskId == tid && a.userId == u.id) = false := by
    rw [← Bool.not_eq_true, List.any_eq_true]
    rintro ⟨a, ha, hc⟩
    simp only [Bool.and_eq_true, beq_iff_eq] at hc
    exact hnorow a ha ⟨hc.1, hc.2⟩
  unfold tasksAssign createAssignment
  simp [ht, hfind, hany, effectiveTarget, Except.isOk, Except.toBool]

/-- C2 amended, witness: on the fixture with no assignment rows the
self-assign goes through. -/
theorem assign_self_succeeds_without_any_row_witness :
    (tasksAssign exDbNoRows 100 none exCreator 300 7).isOk = true :=
  assign_self_succeeds_without_any_row exDbNoRows exCreator 100 300 7 (by decide)
    (by intro a ha; simp [exDbNoRows] at ha)

/-- C3 counterexample: creating a task with an empty title succeeds (the only
title validator is the 255-character maximum), and creating with an
unrecognized priority string also succeeds, the value being silently coerced
to medium.  Both contradict the claim that these inputs fail with a
ValidationError. -/
theorem create_accepts_empty_title_and_bad_priority :
    (tasksCreate exDbNoRows ⟨some "", none, none, none, none, none⟩ exCreator 101 0).isOk
      = true ∧
    (tasksCreate exDbNoRows ⟨some "t", none, some "not-a-priority", none, none, none⟩
      exCreator 102 0).isOk = true :=
  ⟨rfl, rfl⟩

/-- C3 amended: creation fails exactly when the title is missing or longer
than 255 characters — an empty title is accepted; the stored priority is the
coercion `backendPriority` of the request value, which maps an omitted,
unrecognized, or even urgent priority to medium rather than rejecting it;
omitted tags default to the empty list. -/
theorem tasksCreate_validation (db : DB) (input : CreateInput) (u : User) (nid now : Nat) :
    ((tasksCreate db input u nid now).isOk = true ↔
      ∃ s, input.title = some s ∧ s.length ≤ 255) ∧
    (∀ db2 t, tasksCreate db input u nid now = .ok (db2, t) →
      t.priority = backendPriority input.priority ∧ t.tags = input.tags.getD []) ∧
    backendPriority none = .medium ∧
    backendPriority (some "urgent") = .medium ∧
    (∀ s, s ≠ "low" → s ≠ "medium" → s ≠ "high" → backendPriority (some s) = .medium) := by
  refine ⟨?_, ?_, rfl, rfl, ?_⟩
  · unfold tasksCreate
    cases h : input.title with
    | none => simp [Except.isOk, Except.toBool]
    | some s =>
      by_cases hl : s.length > 255
      · simp [hl, Except.isOk, Except.toBool]
      · simp [hl, Except.isOk, Except.toBool]
        omega
  · intro db2 t h
    unfold tasksCreate at h
    cases hti : input.title with
    | none => rw [hti] at h; simp at h
    | some s =>
      rw [hti] at h
      split at h
      · simp at h
      · split at h
        · simp at h
        · simp only [Except.ok.injEq, Prod.mk.injEq] at h
          rw [← h.2]
          exact ⟨rfl, rfl⟩
  · intro s h1 h2 h3
    unfold backendPriority
    simp only [beq_iff_eq, Option.some.injEq]
    rw [if_neg h1, if_neg h2, if_neg h3]

/-- C4: after a successful AssignTask, repeating the same call against the
resulting store fails with the already-assigned error: the handler looks up
the active pair before inserting and never upserts, so at most one active
assignment per (taskId, userId) arises from assigns. -/
theorem assign_twice_already_assigned (db db2 : DB) (a : Assignment) (tid : Nat)
    (uid : Option Nat) (u : User) (n1 t1 n2 t2 : Nat)
    (h : tasksAssign db tid uid u n1 t1 = .ok (db2, a)) :
    tasksAssign db2 tid uid u n2 t2 =
      .error ⟨400, "User is already assigned to this task"⟩ := by
  unfold tasksAssign at h ⊢
  split at h
  · simp at h
  · rename_i t hfind
    split at h
    · simp at h
    · rename_i hc1
      split at h
      · simp at h
      · rename_i hc2
        cases hex : assignmentFindOne db tid (effectiveTarget uid u) with
        | some b => rw [hex] at h; simp at h
        | none =>
          rw [hex] at h
          cases hca : createAssignment db n1 tid (effectiveTarget uid u) u.id t1 with
          | error e => rw [hca] at h; simp at h
          | ok dbn =>
            rw [hca] at h
            simp only [Except.ok.injEq, Prod.mk.injEq] at h
            obtain ⟨hdb2, ha⟩ := h
            have hdbn := createAssignment_ok db dbn n1 tid (effectiveTarget uid u) u.id t1 hca
            subst hdb2
            subst hdbn
            have htf : taskFindOne
                { db with assignments :=
                    ⟨n1, tid, effectiveTarget uid u, u.id, t1, none⟩ :: db.assignments }
                tid u.teamId = some t := hfind
            have huf : userFindOne
                { db with assignments :=
                    ⟨n1, tid, effectiveTarget uid u, u.id, t1, none⟩ :: db.assignments }
                (effectiveTarget uid u) u.teamId =
                userFindOne db (effectiveTarget uid u) u.teamId := rfl
            have hexn : assignmentFindOne
                { db with assignments :=
                    ⟨n1, tid, effectiveTarget uid u, u.id, t1, none⟩ :: db.assignments }
                tid (effectiveTarget uid u) =
                some ⟨n1, tid, effectiveTarget uid u, u.id, t1, none⟩ := by
              unfold assignmentFindOne
              simp
            simp only [htf, huf, hexn]
            rw [if_neg hc1, if_neg hc2]

/-- C4 witness: a concrete first assign succeeds, and the repeat against its
resulting store is rejected as already assigned. -/
theorem assign_twice_already_assigned_witness :
    tasksAssign ⟨[exTask], [⟨300, 100, 1, 1, 7, none⟩], [exCreator]⟩ 100 none exCreator
      301 8 = .error ⟨400, "User is already assigned to this task"⟩ :=
  assign_twice_already_assigned exDbNoRows
    ⟨[exTask], [⟨300, 100, 1, 1, 7, none⟩], [exCreator]⟩ ⟨300, 100, 1, 1, 7, none⟩
    100 none exCreator 300 7 301 8 rfl

/-- C3 amended, witness: empty-title create succeeds via the iff, and an
arbitrary string priority coerces to medium. -/
theorem tasksCreate_validation_witness :
    (tasksCreate exDbNoRows ⟨some "", none, some "urgent", none, none, none⟩
      exCreator 103 0).isOk = true ∧
    backendPriority (some "not-a-priority") = .medium :=
  ⟨(tasksCreate_validation exDbNoRows ⟨some "", none, some "urgent", none, none, none⟩
      exCreator 103 0).1.mpr ⟨"", rfl, by decide⟩,
   (tasksCreate_validation exDbNoRows ⟨some "", none, some "urgent", none, none, none⟩
      exCreator 103 0).2.2.2.2 "not-a-priority" (by decide) (by decide) (by decide)⟩

/-- A second regular (non-admin, non-creator) member of team 10. -/
def exOther : User := ⟨2, 10, false⟩

/-- C5: error-check ordering in assign and unassign.  First, a missing (or
cross-team) task yields the not-found error regardless of the target or the
authorization state: the task check runs first.  Second, when the task
resolves and the supplied target differs from a non-privileged caller, both
handlers answer with the forbidden error without consulting the user table:
no hypothesis about the target existing in the team is needed, so a
cross-team or non-existent target still gets Forbidden, never the
target-not-found error. -/
theorem error_check_order (db : DB) (tid v : Nat) (u : User) (nid now now2 : Nat) :
    (taskFindOne db tid u.teamId = none →
      tasksAssign db tid (some v) u nid now = .error ⟨404, "Task not found"⟩ ∧
      tasksUnassign db tid (some v) u now2 = .error ⟨404, "Task not found"⟩) ∧
    (∀ t, taskFindOne db tid u.teamId = some t → v ≠ u.id → t.createdById ≠ u.id →
      u.isAdmin = false →
      tasksAssign db tid (some v) u nid now =
        .error ⟨403, "Only task creator or administrators can assign tasks to other users"⟩ ∧
      tasksUnassign db tid (some v) u now2 =
        .error ⟨403, "Only task creator or administrators can unassign tasks from other users"⟩) := by
  constructor
  · intro h
    constructor
    · unfold tasksAssign
      simp only [h]
    · unfold tasksUnassign
      simp only [h]
  · intro t ht hv hc hadm
    have hcond : (effectiveTarget (some v) u != u.id && t.createdById != u.id &&
        !u.isAdmin) = true := by
      simp [effectiveTarget, bne_iff_ne, hv, hc, hadm]
    constructor
    · unfold tasksAssign
      simp only [ht]
      rw [if_pos hcond]
    · unfold tasksUnassign
      simp only [ht]
      rw [if_pos hcond]

/-- C5 witness: with no task the non-privileged caller gets not-found, and
with the task present they get forbidden for a foreign target (the target,
user 3, exists in no team at all, yet the error is Forbidden). -/
theorem error_check_order_witness :
    tasksAssign ⟨[], [], []⟩ 100 (some 3) exOther 300 7 =
      .error ⟨404, "Task not found"⟩ ∧
    tasksAssign exDb 100 (some 3) exOther 300 7 =
      .error ⟨403, "Only task creator or administrators can assign tasks to other users"⟩ :=
  ⟨((error_check_order ⟨[], [], []⟩ 100 3 exOther 300 7 8).1 rfl).1,
   ((error_check_order exDb 100 3 exOther 300 7 8).2 exTask rfl (by decide) (by decide)
     rfl).1⟩

/-- C6: anti-leak team scoping.  Whenever no active task with the requested
id is visible to the caller team — whether the id belongs to another team or
to no row at all — the read, update, delete, assign and unassign handlers all
return one and the same not-found response, so a cross-team task is
indistinguishable from a non-existent one and no distinct forbidden error is
ever produced. -/
theorem cross_team_indistinguishable (db : DB) (tid : Nat) (u : User) (uid : Option Nat)
    (input : UpdateInput) (nid now : Nat)
    (h : ∀ t ∈ db.tasks, t.deletedAt = none → t.id = tid → t.teamId ≠ u.teamId)
    (hin : input.id = tid) :
    tasksGet db tid u = .error ⟨404, "Task not found"⟩ ∧
    tasksUpdate db input u = .error ⟨404, "Task not found"⟩ ∧
    tasksDelete db tid u now = .error ⟨404, "Task not found"⟩ ∧
    tasksAssign db tid uid u nid now = .error ⟨404, "Task not found"⟩ ∧
    tasksUnassign db tid uid u now = .error ⟨404, "Task not found"⟩ := by
  have hfind : taskFindOne db tid u.teamId = none := by
    unfold taskFindOne
    refine List.find?_eq_none.mpr fun t ht => ?_
    simp only [Bool.and_eq_true, beq_iff_eq, Option.isNone_iff_eq_none]
    intro hc
    exact h t ht hc.1.1 hc.1.2 hc.2
  refine ⟨?_, ?_, ?_, ?_, ?_⟩
  · unfold tasksGet
    simp only [hfind]
  · unfold tasksUpdate
    simp only [hin, hfind]
  · unfold tasksDelete
    simp only [hfind]
  · unfold tasksAssign
    simp only [hfind]
  · unfold tasksUnassign
    simp only [hfind]

/-- C6 witness: a caller from team 20 reading task 100 of team 10 gets the
same not-found response as reading id 100 against an empty store. -/
theorem cross_team_indistinguishable_witness :
    tasksGet exDb 100 ⟨5, 20, false⟩ = .error ⟨404, "Task not found"⟩ ∧
    tasksGet ⟨[], [], []⟩ 100 ⟨5, 20, false⟩ = .error ⟨404, "Task not found"⟩ :=
  ⟨(cross_team_indistinguishable exDb 100 ⟨5, 20, false⟩ none
      ⟨100, none, none, none, none, none, none⟩ 300 7 (by decide) rfl).1,
   (cross_team_indistinguishable ⟨[], [], []⟩ 100 ⟨5, 20, false⟩ none
      ⟨100, none, none, none, none, none, none⟩ 300 7 (by simp) rfl).1⟩

/-- After the bulk soft-delete no active row for the pair remains visible. -/
theorem removeAssignment_clears (db : DB) (tid target now : Nat) :
    assignmentFindOne (removeAssignment db tid target now).1 tid target = none := by
  unfold assignmentFindOne removeAssignment
  refine List.find?_eq_none.mpr fun x hx => ?_
  simp only [List.mem_map] at hx
  obtain ⟨a, ha, rfl⟩ := hx
  by_cases hr : removeHits tid target a
  · simp [hr]
  · simp only [if_neg hr]
    unfold removeHits at hr
    exact fun hc => hr hc

/-- C7: unassign semantics.  First, for an authorized caller on a visible
task, the handler answers with the assignment-not-found error whenever no
active assignment for the effective pair exists — there is no silent
success.  Second, every successful unassign returns a confirmation carrying
the task id, the effective target user id and a true deleted flag, and
repeating the same unassign against the resulting store fails with the
assignment-not-found error, because the assignment row was soft-deleted. -/
theorem unassign_not_found_and_not_idempotent (db : DB) (tid : Nat) (uid : Option Nat)
    (u : User) (now now2 : Nat) :
    (∀ t, taskFindOne db tid u.teamId = some t →
      (effectiveTarget uid u = u.id ∨ t.createdById = u.id ∨ u.isAdmin = true) →
      assignmentFindOne db tid (effectiveTarget uid u) = none →
      tasksUnassign db tid uid u now = .error ⟨404, "Assignment not found"⟩) ∧
    (∀ db2 r, tasksUnassign db tid uid u now = .ok (db2, r) →
      r.taskId = tid ∧ r.userId = effectiveTarget uid u ∧ r.deleted = true ∧
      tasksUnassign db2 tid uid u now2 = .error ⟨404, "Assignment not found"⟩) := by
  constructor
  · intro t ht hperm hnone
    have hcond : (effectiveTarget uid u != u.id && t.createdById != u.id &&
        !u.isAdmin) = false := by
      rcases hperm with hp | hp | hp <;> simp [hp]
    unfold tasksUnassign
    simp only [ht]
    rw [if_neg (by simp [hcond])]
    simp only [hnone]
  · intro db2 r h
    unfold tasksUnassign at h
    split at h
    · simp at h
    · rename_i t hfind
      split at h
      · simp at h
      · rename_i hc1
        cases hex : assignmentFindOne db tid (effectiveTarget uid u) with
        | none => rw [hex] at h; simp at h
        | some b =>
          rw [hex] at h
          simp only [Except.ok.injEq, Prod.mk.injEq] at h
          obtain ⟨hdb2, hr⟩ := h
          subst hdb2
          subst hr
          have hmem : b ∈ db.assignments ∧ removeHits tid (effectiveTarget uid u) b := by
            unfold assignmentFindOne at hex
            exact ⟨List.mem_of_find?_eq_some hex, List.find?_some hex⟩
          have hcount : 0 < (db.assignments.filter
              (removeHits tid (effectiveTarget uid u))).length :=
            List.length_pos.mpr (List.ne_nil_of_mem (List.mem_filter.mpr hmem))
          refine ⟨rfl, rfl, ?_, ?_⟩
          · simp [removeAssignment, hcount]
          · have htf2 : taskFindOne (removeAssignment db tid (effectiveTarget uid u) now).1
                tid u.teamId = some t := hfind
            unfold tasksUnassign
            simp only [htf2]
            rw [if_neg hc1]
            simp only [removeAssignment_clears]

/-- C7 witness: with only a tombstoned row for the pair, unassign reports
assignment-not-found; and after a concrete successful unassign, the repeated
call fails the same way. -/
theorem unassign_not_found_and_not_idempotent_witness :
    tasksUnassign exDbTombstone 100 none exCreator 9 =
      .error ⟨404, "Assignment not found"⟩ ∧
    tasksUnassign ⟨[exTask], [⟨200, 100, 1, 1, 0, some 9⟩], [exCreator]⟩ 100 none
      exCreator 11 = .error ⟨404, "Assignment not found"⟩ :=
  ⟨(unassign_not_found_and_not_idempotent exDbTombstone 100 none exCreator 9 10).1
      exTask rfl (Or.inl rfl) rfl,
   ((unassign_not_found_and_not_idempotent exDb 100 none exCreator 9 11).2
      ⟨[exTask], [⟨200, 100, 1, 1, 0, some 9⟩], [exCreator]⟩ ⟨true, 100, 1⟩ rfl).2.2.2⟩

/-- C8: the update handler is frame-preserving.  On any successful update the
resulting task keeps the team, creator and creation timestamp of the found
task, every omitted field keeps its previous value, and every supplied field
takes exactly the supplied value (for priority, its validated parse; for the
deadline, the dueDate-then-deadline fallback). -/
theorem update_touches_only_supplied_fields (db : DB) (input : UpdateInput) (u : User)
    (t0 : Task) (hfind : taskFindOne db input.id u.teamId = some t0) :
    ∀ db2 t2, tasksUpdate db input u = .ok (db2, t2) →
      t2.teamId = t0.teamId ∧ t2.createdById = t0.createdById ∧
      t2.createdAt = t0.createdAt ∧
      (input.title = none → t2.title = t0.title) ∧
      (∀ s, input.title = some s → t2.title = s) ∧
      (input.description = none → t2.description = t0.description) ∧
      (input.priority = none → t2.priority = t0.priority) ∧
      (∀ p pr, input.priority = some p → parsePriority p = some pr → t2.priority = pr) ∧
      (input.dueDate = none → input.deadline = none → t2.deadline = t0.deadline) ∧
      (input.tags = none → t2.tags = t0.tags) ∧
      (∀ ts, input.tags = some ts → t2.tags = ts) := by
  intro db2 t2 h
  unfold tasksUpdate at h
  split at h
  · simp at h
  · rename_i t hfind2
    rw [hfind] at hfind2
    cases hfind2
    split at h
    · simp at h
    · rename_i hlen
      cases hpr : resolvePriority input t0 with
      | none => rw [hpr] at h; simp at h
      | some pr =>
        rw [hpr] at h
        simp only [Except.ok.injEq, Prod.mk.injEq] at h
        obtain ⟨hdb2, ht2⟩ := h
        subst ht2
        refine ⟨rfl, rfl, rfl, ?_, ?_, ?_, ?_, ?_, ?_, ?_, ?_⟩
        · intro hn
          simp [updatedTask, hn]
        · intro s hs
          simp [updatedTask, hs]
        · intro hn
          simp [updatedTask, hn]
        · intro hn
          unfold resolvePriority at hpr
          rw [hn] at hpr
          simp only [Option.some.injEq] at hpr
          simp [updatedTask, hpr]
        · intro p pr2 hp hpp
          unfold resolvePriority at hpr
          rw [hp] at hpr
          simp at hpr
          rw [hpp] at hpr
          simp only [Option.some.injEq] at hpr
          simp [updatedTask, hpr]
        · intro hd1 hd2
          simp [updatedTask, effectiveDeadline, hd1, hd2]
        · intro hn
          simp [updatedTask, hn]
        · intro ts hts
          simp [updatedTask, hts]

/-- C8 witness: a title-only update of the fixture task keeps the team id and
the (omitted) description. -/
theorem update_touches_only_supplied_fields_witness :
    (updatedTask exTask ⟨100, some "New title", none, none, none, none, none⟩
        exTask.priority).teamId = exTask.teamId ∧
    (updatedTask exTask ⟨100, some "New title", none, none, none, none, none⟩
        exTask.priority).description = exTask.description :=
  ⟨(update_touches_only_supplied_fields exDb
      ⟨100, some "New title", none, none, none, none, none⟩ exCreator exTask rfl
      _ _ rfl).1,
   (update_touches_only_supplied_fields exDb
      ⟨100, some "New title", none, none, none, none, none⟩ exCreator exTask rfl
      _ _ rfl).2.2.2.2.2.1 rfl⟩

/-- C9: a soft-deleted task behaves like a missing task for every later
write on its id: once a delete succeeds, update, delete, assign and unassign
against the resulting store answer with the not-found error for every caller
from every team — in particular the second delete of the same task fails
rather than succeeding idempotently. -/
theorem deleted_task_not_found_afterwards (db db2 : DB) (tid : Nat) (u : User) (now : Nat)
    (h : tasksDelete db tid u now = .ok db2) :
    ∀ (u2 : User) (uid : Option Nat) (input : UpdateInput) (nid now2 : Nat),
      input.id = tid →
      tasksUpdate db2 input u2 = .error ⟨404, "Task not found"⟩ ∧
      tasksDelete db2 tid u2 now2 = .error ⟨404, "Task not found"⟩ ∧
      tasksAssign db2 tid uid u2 nid now2 = .error ⟨404, "Task not found"⟩ ∧
      tasksUnassign db2 tid uid u2 now2 = .error ⟨404, "Task not found"⟩ := by
  intro u2 uid input nid now2 hin
  unfold tasksDelete at h
  split at h
  · simp at h
  · rename_i t hfind
    simp only [Except.ok.injEq] at h
    subst h
    have hid : t.id = tid := by
      unfold taskFindOne at hfind
      have hp := List.find?_some hfind
      simp only [Bool.and_eq_true, beq_iff_eq] at hp
      exact hp.1.2
    have hnone : ∀ tm, taskFindOne
        { db with tasks := db.tasks.map fun x =>
            if x.id == t.id then { x with deletedAt := some now } else x }
        tid tm = none := by
      intro tm
      unfold taskFindOne
      refine List.find?_eq_none.mpr fun x hx => ?_
      simp only [List.mem_map] at hx
      obtain ⟨a, ha, rfl⟩ := hx
      by_cases hcase : a.id == t.id
      · simp [hcase]
      · simp only [if_neg hcase]
        simp only [Bool.and_eq_true, beq_iff_eq]
        intro hc
        rw [hid] at hcase
        exact hcase (by simp [hc.1.2])
    refine ⟨?_, ?_, ?_, ?_⟩
    · unfold tasksUpdate
      simp only [hin, hnone]
    · unfold tasksDelete
      simp only [hnone]
    · unfold tasksAssign
      simp only [hnone]
    · unfold tasksUnassign
      simp only [hnone]

/-- C9 witness: after the concrete delete of task 100, deleting it again
fails with not-found. -/
theorem deleted_task_not_found_afterwards_witness :
    tasksDelete exDbDeleted 100 exCreator 6 = .error ⟨404, "Task not found"⟩ :=
  (deleted_task_not_found_afterwards exDb exDbDeleted 100 exCreator 5 rfl exCreator none
    ⟨100, none, none, none, none, none, none⟩ 300 6 rfl).2.1

end Tasks
